import Mathlib

/-!
Verification of the gaussdec decomposition pipeline
(`src/decompose/call_specfit.py`) against its specification.

The numeric type of the Python code (IEEE floats) is modelled by an
arbitrary field `K`; theorems about exact arithmetic identities hold for
any field, and concrete instantiations use `ℚ` so that statements can be
evaluated.  External collaborators (healpy's `pix2ang`, `np.pi`, the
hi4pi channel/velocity calibration constants) are bundled in an
`Externals` record, since the pipeline only ever applies them pointwise.
-/

namespace Gaussdec

/-- Python exception classes raised by the pipeline, as an enumeration:
`fileExists` is the `IOError("File already exists")` of `create_tables`,
`indexError` the `IndexError` of `table[row_index]` in `do_fit`,
`valueError` the `ValueError` of `np.random.choice(range(n), size=k, replace=False)`
when `k > n`, and `configError` a failure of `misc.parse_config`. -/
inductive PyError where
  | fileExists
  | indexError
  | valueError
  | configError
deriving DecidableEq

/-- External collaborators used by the pipeline, bundled: `pi` is `np.pi`;
`pix2angTheta`/`pix2angPhi` are the two components of
`np.rad2deg(hp.pix2ang(1024, ·))` (the nside-1024 resolution is baked in, as in
the source); `crval3`, `crpix3`, `cdelt3` are the fixed hi4pi channel-to-velocity
calibration constants (reference value, reference channel, channel width). -/
structure Externals (K : Type) where
  pi : K
  pix2angTheta : Nat → K
  pix2angPhi : Nat → K
  crval3 : K
  crpix3 : K
  cdelt3 : K

/-- One record of the source `survey` table: the stored pixel identifier
(`HPXINDEX` field) and the spectrum's intensity samples (`DATA`). -/
structure SurveyRow (K : Type) where
  hpxindex : Nat
  data : List K
deriving DecidableEq

instance {K : Type} : Inhabited (SurveyRow K) := ⟨⟨0, []⟩⟩

/-- One output record, mirroring the `GaussDec` pytables description
(class `GaussDec` in the source): coordinates and Gauss fit parameters. -/
structure GaussDecRow (K : Type) where
  hpxindex : Nat
  glon : K
  glat : K
  amplitude : K
  peak : K
  center_c : K
  center_kms : K
  sigma_c : K
  sigma_kms : K
deriving DecidableEq

instance {K : Type} [Field K] : Inhabited (GaussDecRow K) :=
  ⟨⟨0, 0, 0, 0, 0, 0, 0, 0, 0⟩⟩

/-- Modelled from the spec: `hi4pi.channel2velo`, the external
channel-to-velocity calibration — "`center_kms` and `sigma_kms` are affine
transforms of the channel-unit values using fixed instrument calibration
constants (channel-to-velocity reference pixel/increment)". -/
def channel2velo {K : Type} [Field K] (ext : Externals K) (c : K) : K :=
  (c - ext.crpix3) * ext.cdelt3 + ext.crval3

/-- The Result Normalizer: the body of the `for row_index, fitresults in
pool.imap(...)` loop of `fit_spectra` (lines 171-192) that turns one raw fit
result into output records.  `hpxindex = row_index`; `(theta, glon)` come from
the pixelization collaborator and `glat = 90 - theta`; each consecutive triplet
of `fitresults` yields one record (`for i in range(len(fitresults) // 3)`). -/
def normalizeUnit {K : Type} [Field K] (ext : Externals K) (row_index : Nat)
    (fitresults : List K) : List (GaussDecRow K) :=
  let hpxindex := row_index
  let glon := ext.pix2angPhi hpxindex
  let glat := (90 : K) - ext.pix2angTheta hpxindex
  (List.range (fitresults.length / 3)).map fun i =>
    let amplitude := fitresults.getD (i * 3) 0
    let center_c := fitresults.getD (i * 3 + 1) 0
    let sigma_c := fitresults.getD (i * 3 + 2) 0
    { hpxindex := hpxindex
      glon := glon
      glat := glat
      amplitude := amplitude
      center_c := center_c
      center_kms := channel2velo ext center_c
      sigma_c := sigma_c
      sigma_kms := sigma_c * ext.cdelt3
      peak := amplitude / 2 / ext.pi / sigma_c }

/-- `do_fit` (lines 99-114): fetch `table[row_index]` (raising `IndexError`
when the index is out of range, as pytables does) and call the external fitter
on the row, returning the identifier together with the raw parameter vector.
`fitter` bundles `fit_spectrum` with the fixed run configuration. -/
def do_fit {K : Type} (table : List (SurveyRow K)) (fitter : SurveyRow K → List K)
    (row_index : Nat) : Except PyError (Nat × List K) :=
  match table.get? row_index with
  | none => .error .indexError
  | some row => .ok (row_index, fitter row)

/-- `get_row_index` (lines 117-146): if no explicit index list is given, a
negative `nsamples` yields every row index in ascending order, otherwise
`np.random.choice(range(nrows), size=nsamples, replace=False)` draws the
sample (raising `ValueError` when the requested size exceeds the population);
an explicit index list is emitted in file order.  The random draw is an
external collaborator, passed in as `choice`. -/
def get_row_index (choice : Nat → Nat → List Nat) (nsamples : Int)
    (hpxindices : Option (List Nat)) (nrows : Nat) : Except PyError (List Nat) :=
  match hpxindices with
  | none =>
    if nsamples < 0 then
      .ok (List.range nrows)
    else
      if nrows < nsamples.toNat then
        .error .valueError
      else
        .ok (choice nrows nsamples.toNat)
  | some indices => .ok indices

/-- The branch taken by `get_row_index`, read off its `if`/`else` structure:
explicit list when `hpxindices` is present, otherwise full scan for negative
`nsamples` and random sample for zero-or-positive `nsamples`. -/
inductive EnumMode where
  | fullScan
  | randomSample
  | explicitList
deriving DecidableEq

/-- Mode selector of `get_row_index`, mirroring its branch structure. -/
def enumMode (nsamples : Int) (hpxindices : Option (List Nat)) : EnumMode :=
  match hpxindices with
  | none => if nsamples < 0 then .fullScan else .randomSample
  | some _ => .explicitList

/-- Modelled from the spec: `np.random.choice(range(n), size=k, replace=False)`
draws `k` distinct row indices from `[0, n)` ("a configurable count of distinct
row indices drawn uniformly without replacement from the full valid range").
The draw is random; this is one fixed representative satisfying that contract,
used only to instantiate theorems at concrete inputs. -/
def choiceModel (n k : Nat) : List Nat :=
  (List.range n).take k

/-- Observable events of one `fit_spectra` run, in program order:
worker-pool creation (`Pool(...)`, line 157), config parsing
(`misc.parse_config`, line 165), one `entry.append()` per output record
(line 192), and each `gdec_store.flush()` (line 195). -/
inductive RunEvent (K : Type) where
  | poolStarted
  | configParsed
  | rowAppended (r : GaussDecRow K)
  | flushed

/-- Events contributed by one completed work unit (lines 171-195): all of its
records are appended, then the store is flushed iff `row_index % 1000 == 0`. -/
def unitEvents {K : Type} [Field K] (ext : Externals K) (row_index : Nat)
    (fitresults : List K) : List (RunEvent K) :=
  ((normalizeUnit ext row_index fitresults).map RunEvent.rowAppended) ++
    (if row_index % 1000 = 0 then [RunEvent.flushed] else [])

/-- The result-consumption loop of `fit_spectra` (lines 167-195): work units
are drawn one at a time (in completion order, abstracted as the list `order`);
an exception raised by `do_fit` propagates through `pool.imap` and aborts the
loop, leaving the remaining units unprocessed. -/
def fit_spectra_loop {K : Type} [Field K] (ext : Externals K)
    (table : List (SurveyRow K)) (fitter : SurveyRow K → List K) :
    List Nat → List (RunEvent K) × Option PyError
  | [] => ([], none)
  | u :: rest =>
    match do_fit table fitter u with
    | .error e => ([], some e)
    | .ok (ri, fr) =>
      let tail := fit_spectra_loop ext table fitter rest
      (unitEvents ext ri fr ++ tail.1, tail.2)

/-- Command-line arguments of the program (`main`'s argparser). -/
structure Arguments where
  infile : String
  config : String
  nsamples : Int
  hpxindices : Option (List Nat)
  clobber : Bool
  outname : String

/-- `fit_spectra` (lines 149-200), as an event trace: the pool is created
first (line 157, starting the worker processes), then the config is parsed
(line 165, raising on a malformed file), then `pool.imap` consumes
`get_row_index` (whose sampling step may raise before emitting any unit) and
drives the per-unit loop. -/
def fit_spectra {K : Type} [Field K] (ext : Externals K)
    (choice : Nat → Nat → List Nat) (table : List (SurveyRow K))
    (fitter : SurveyRow K → List K) (cfgOk : Bool) (args : Arguments) :
    List (RunEvent K) × Option PyError :=
  if cfgOk then
    match get_row_index choice args.nsamples args.hpxindices table.length with
    | .error e => ([RunEvent.poolStarted, RunEvent.configParsed], some e)
    | .ok units =>
      let run := fit_spectra_loop ext table fitter units
      (RunEvent.poolStarted :: RunEvent.configParsed :: run.1, run.2)
  else
    ([RunEvent.poolStarted], some PyError.configError)

/-- One output table: its rows plus the state of the `hpxindex` index
(`create_csindex()` eagerly builds it, `autoindex = True` keeps it maintained
on subsequent inserts). -/
structure OutTable (K : Type) where
  rows : List (GaussDecRow K)
  csindexed : Bool
  autoindex : Bool

/-- Paths of the surrounding file system, each possibly holding an output
table (`os.path.isfile` is `isSome`). -/
def FileSys (K : Type) := String → Option (OutTable K)

/-- `create_tables` (lines 58-79): raise `IOError("File already exists")` if
the output path exists and clobber is unset, leaving the file system
untouched; otherwise (re)create the path with a fresh empty table whose
`hpxindex` column is indexed (`create_csindex`) and auto-maintained
(`autoindex = True`). -/
def create_tables {K : Type} (fs : FileSys K) (arguments : Arguments) :
    FileSys K × Option PyError :=
  if (fs arguments.outname).isSome && !arguments.clobber then
    (fs, some PyError.fileExists)
  else
    (fun p =>
      if p = arguments.outname then
        some { rows := [], csindexed := true, autoindex := true }
      else fs p,
     none)

/-- `entry.append()` on an open output table: one row is added; the index
flags are untouched (`autoindex` keeps the `hpxindex` index maintained). -/
def tableAppend {K : Type} (t : OutTable K) (r : GaussDecRow K) : OutTable K :=
  { t with rows := t.rows ++ [r] }

/-- The work units the loop actually reaches: the longest prefix of the
completion order containing only in-range row indices (the first out-of-range
index aborts the loop). -/
def processedUnits {K : Type} (table : List (SurveyRow K)) (order : List Nat) :
    List Nat :=
  order.takeWhile fun u => decide (u < table.length)

/-- The output-table contents determined by an event trace: the appended
records, in order. -/
def outputRows {K : Type} (events : List (RunEvent K)) : List (GaussDecRow K) :=
  events.filterMap fun e =>
    match e with
    | .rowAppended r => some r
    | _ => none

/-- Number of durability flushes in an event trace. -/
def countFlushes {K : Type} (events : List (RunEvent K)) : Nat :=
  events.countP fun e =>
    match e with
    | .flushed => true
    | _ => false

/-! ### Concrete instances used to instantiate theorems

`ext0` is a concrete external-collaborator bundle over `ℚ` (the value of `pi`
is irrelevant to the statements it is used in); `table3` and `stubFitter` are
the 3-row example table and stub fitter of the specification's end-to-end
example (spec §8). -/

/-- A concrete external-collaborator bundle over `ℚ`. -/
def ext0 : Externals ℚ :=
  { pi := 355 / 113
    pix2angTheta := fun _ => 0
    pix2angPhi := fun _ => 0
    crval3 := 0
    crpix3 := 0
    cdelt3 := 1 }

/-- The spec's example source table: 3 rows with stored `HPXINDEX` values
`[10, 20, 30]`. -/
def table3 : List (SurveyRow ℚ) :=
  [⟨10, []⟩, ⟨20, []⟩, ⟨30, []⟩]

/-- The spec's stub fitter: `[5.0, 100.0, 2.0]` for row 0, `[]` for row 1,
`[3.0, 50.0, 1.0, 4.0, 150.0, 1.5]` for row 2 (rows identified by their stored
pixel identifier). -/
def stubFitter : SurveyRow ℚ → List ℚ := fun row =>
  if row.hpxindex = 10 then [5, 100, 2]
  else if row.hpxindex = 20 then []
  else [3, 50, 1, 4, 150, 3 / 2]

/-- Concrete CLI arguments for a full-scan run. -/
def argsFull : Arguments :=
  { infile := "HI4PI_DR1.h5"
    config := "cfg"
    nsamples := -1
    hpxindices := none
    clobber := false
    outname := "gaussdec.h5" }

/-- Concrete CLI arguments requesting a 5-element sample. -/
def argsOversample : Arguments :=
  { argsFull with nsamples := 5 }

end Gaussdec

namespace Gaussdec

theorem outputRows_append {K : Type} (a b : List (RunEvent K)) :
    outputRows (a ++ b) = outputRows a ++ outputRows b :=
  List.filterMap_append a b _

theorem outputRows_unitEvents {K : Type} [Field K] (ext : Externals K)
    (u : Nat) (fr : List K) :
    outputRows (unitEvents ext u fr) = normalizeUnit ext u fr := by
  unfold outputRows unitEvents
  rw [List.filterMap_append, List.filterMap_map]
  have h1 : (List.filterMap
      ((fun e => match e with | RunEvent.rowAppended r => some r | _ => none) ∘
        RunEvent.rowAppended) (normalizeUnit ext u fr)) = normalizeUnit ext u fr := by
    have : ((fun e => match e with | RunEvent.rowAppended r => some r | _ => none) ∘
        (RunEvent.rowAppended (K := K))) = some := rfl
    rw [this, List.filterMap_some]
  rw [h1]
  have h2 : ∀ l : List (RunEvent K),
      (∀ e ∈ l, e = RunEvent.flushed) →
      (List.filterMap
        (fun e => match e with | RunEvent.rowAppended r => some r | _ => none) l) = [] := by
    intro l hl
    induction l with
    | nil => rfl
    | cons e t ih =>
      have he := hl e (List.mem_cons_self e t)
      subst he
      rw [List.filterMap_cons]
      exact ih fun x hx => hl x (List.mem_cons_of_mem _ hx)
  split
  · rw [h2 _ (by intro e he; simpa using he), List.append_nil]
  · rw [h2 _ (by intro e he; simp at he), List.append_nil]

theorem processedUnits_cons {K : Type} (table : List (SurveyRow K)) (u : Nat)
    (rest : List Nat) :
    processedUnits table (u :: rest) =
      if u < table.length then u :: processedUnits table rest else [] := by
  unfold processedUnits
  rw [List.takeWhile_cons]
  split <;> split <;> simp_all

theorem loop_events_eq {K : Type} [Field K] (ext : Externals K)
    (table : List (SurveyRow K)) (fitter : SurveyRow K → List K) (order : List Nat) :
    (fit_spectra_loop ext table fitter order).1 =
      ((processedUnits table order).map fun u =>
        unitEvents ext u (fitter (table.getD u default))).flatten := by
  induction order with
  | nil => simp [fit_spectra_loop, processedUnits]
  | cons u rest ih =>
    rw [processedUnits_cons]
    by_cases h : u < table.length
    · have hget : table.get? u = some (table.get ⟨u, h⟩) := List.get?_eq_get h
      have hgetD : table.getD u default = table.get ⟨u, h⟩ := by
        rw [List.getD_eq_getElem?_getD]
        simp [List.getElem?_eq_getElem h]
      simp only [fit_spectra_loop, do_fit, hget, if_pos h, List.map_cons,
        List.flatten_cons, hgetD]
      rw [ih]
    · have hget : table.get? u = none := List.get?_eq_none.mpr (Nat.le_of_not_lt h)
      simp only [fit_spectra_loop, do_fit, hget, if_neg h, List.map_nil,
        List.flatten_nil]

theorem loop_err_eq {K : Type} [Field K] (ext : Externals K)
    (table : List (SurveyRow K)) (fitter : SurveyRow K → List K) (order : List Nat) :
    (fit_spectra_loop ext table fitter order).2 =
      if ∀ u ∈ order, u < table.length then none
      else some PyError.indexError := by
  induction order with
  | nil => simp [fit_spectra_loop]
  | cons u rest ih =>
    by_cases h : u < table.length
    · have hget : table.get? u = some (table.get ⟨u, h⟩) := List.get?_eq_get h
      simp only [fit_spectra_loop, do_fit, hget, ih, List.forall_mem_cons, h, true_and]
    · have hget : table.get? u = none := List.get?_eq_none.mpr (Nat.le_of_not_lt h)
      have hcond : ¬ ∀ v ∈ u :: rest, v < table.length :=
        fun hall => h (hall u (List.mem_cons_self u rest))
      simp only [fit_spectra_loop, do_fit, hget, if_neg hcond]

theorem outputRows_loop_eq_flatten {K : Type} [Field K] (ext : Externals K)
    (table : List (SurveyRow K)) (fitter : SurveyRow K → List K) (order : List Nat) :
    outputRows (fit_spectra_loop ext table fitter order).1 =
      ((processedUnits table order).map fun u =>
        normalizeUnit ext u (fitter (table.getD u default))).flatten := by
  rw [loop_events_eq]
  induction (processedUnits table order) with
  | nil => simp [outputRows]
  | cons u rest ih =>
    simp only [List.map_cons, List.flatten_cons, outputRows_append, ih,
      outputRows_unitEvents]

end Gaussdec

namespace Gaussdec

theorem countFlushes_append {K : Type} (a b : List (RunEvent K)) :
    countFlushes (a ++ b) = countFlushes a + countFlushes b :=
  List.countP_append _ a b

theorem countFlushes_unitEvents {K : Type} [Field K] (ext : Externals K)
    (u : Nat) (fr : List K) :
    countFlushes (unitEvents ext u fr) = if u % 1000 = 0 then 1 else 0 := by
  unfold countFlushes unitEvents
  rw [List.countP_append]
  have h1 : ∀ l : List (GaussDecRow K),
      List.countP (fun e => match e with | RunEvent.flushed => true | _ => false)
        (l.map RunEvent.rowAppended) = 0 := by
    intro l
    induction l with
    | nil => rfl
    | cons r t ih =>
      rw [List.map_cons, List.countP_cons_of_neg _ _ (by simp)]
      exact ih
  rw [h1, Nat.zero_add]
  split <;> rfl

theorem processedUnits_idem {K : Type} (table : List (SurveyRow K)) (order : List Nat) :
    processedUnits table (processedUnits table order) = processedUnits table order := by
  unfold processedUnits
  induction order with
  | nil => rfl
  | cons u rest ih =>
    rw [List.takeWhile_cons]
    split
    · rw [List.takeWhile_cons]
      split
      · rw [ih]
      · simp_all
    · rfl

theorem mem_processedUnits_lt {K : Type} (table : List (SurveyRow K)) (order : List Nat)
    (u : Nat) (h : u ∈ processedUnits table order) : u < table.length := by
  unfold processedUnits at h
  simpa using List.mem_takeWhile_imp h

end Gaussdec

namespace Gaussdec

theorem normalizeUnit_congr {K : Type} [Field K] (ext : Externals K) (u : Nat)
    (fr fr2 : List K) (hlen : fr.length / 3 = fr2.length / 3)
    (hget : ∀ m, m < 3 * (fr.length / 3) → fr.getD m 0 = fr2.getD m 0) :
    normalizeUnit ext u fr = normalizeUnit ext u fr2 := by
  unfold normalizeUnit
  rw [← hlen]
  apply List.map_congr_left
  intro i hi
  rw [List.mem_range] at hi
  have e0 : fr.getD (i * 3) 0 = fr2.getD (i * 3) 0 := hget _ (by omega)
  have e1 : fr.getD (i * 3 + 1) 0 = fr2.getD (i * 3 + 1) 0 := hget _ (by omega)
  have e2 : fr.getD (i * 3 + 2) 0 = fr2.getD (i * 3 + 2) 0 := hget _ (by omega)
  simp only [e0, e1, e2]

/-- C2: for a raw fit-result vector of length `3·N` the Result Normalizer
emits exactly `N` records, all sharing the work unit's `hpxindex`, `glon` and
`glat`; an empty raw vector yields zero records (the normalizer is a total
function, so no error is possible). -/
theorem C2_theorem {K : Type} [Field K] (ext : Externals K) (u : Nat)
    (fr : List K) (N : Nat) (h : fr.length = 3 * N) :
    (normalizeUnit ext u fr).length = N ∧
    (∀ r ∈ normalizeUnit ext u fr,
      r.hpxindex = u ∧ r.glon = ext.pix2angPhi u ∧
      r.glat = 90 - ext.pix2angTheta u) ∧
    normalizeUnit ext u ([] : List K) = [] := by
  refine ⟨?_, ?_, ?_⟩
  · simp [normalizeUnit, h, Nat.mul_div_cancel_left N (by norm_num : 0 < 3)]
  · intro r hr
    simp only [normalizeUnit, List.mem_map, List.mem_range] at hr
    obtain ⟨i, hi, rfl⟩ := hr
    exact ⟨rfl, rfl, rfl⟩
  · simp [normalizeUnit]

/-- Witness for C2 at the concrete raw vector `[5, 100, 2]` (`N = 1`). -/
theorem C2_witness :
    ([5, 100, 2] : List ℚ).length = 3 * 1 ∧
      (normalizeUnit ext0 7 [(5 : ℚ), 100, 2]).length = 1 :=
  ⟨by decide, (C2_theorem ext0 7 [(5 : ℚ), 100, 2] 1 (by decide)).1⟩

/-- C3: every record produced from a triplet `(amplitude, center_c, sigma_c)`
satisfies `peak = amplitude / (2·π·sigma_c)` exactly (hence within any
tolerance; `ext.pi` models `np.pi`), `center_kms = channel2velo center_c` (the
fixed affine channel-to-velocity transform), and `sigma_kms = sigma_c · CDELT3`
(the fixed channel-width constant). -/
theorem C3_theorem {K : Type} [Field K] (ext : Externals K) (u : Nat)
    (fr : List K) (r : GaussDecRow K) (h : r ∈ normalizeUnit ext u fr) :
    r.peak = r.amplitude / (2 * ext.pi * r.sigma_c) ∧
    r.center_kms = channel2velo ext r.center_c ∧
    r.sigma_kms = r.sigma_c * ext.cdelt3 := by
  simp only [normalizeUnit, List.mem_map, List.mem_range] at h
  obtain ⟨i, hi, rfl⟩ := h
  refine ⟨?_, rfl, rfl⟩
  show fr.getD (i * 3) 0 / 2 / ext.pi / fr.getD (i * 3 + 2) 0 =
    fr.getD (i * 3) 0 / (2 * ext.pi * fr.getD (i * 3 + 2) 0)
  rw [div_div, div_div, mul_assoc]

theorem headI_mem_of_ne_nil {A : Type} [Inhabited A] (l : List A) (h : l ≠ []) :
    l.headI ∈ l := by
  cases l with
  | nil => exact absurd rfl h
  | cons a t => exact List.mem_cons_self a t

/-- Witness for C3: the record produced from the triplet `(5, 100, 2)`. -/
theorem C3_witness :
    ((normalizeUnit ext0 7 [(5 : ℚ), 100, 2]).headI).peak =
      ((normalizeUnit ext0 7 [(5 : ℚ), 100, 2]).headI).amplitude /
        (2 * ext0.pi * ((normalizeUnit ext0 7 [(5 : ℚ), 100, 2]).headI).sigma_c) := by
  have hm : (normalizeUnit ext0 7 [(5 : ℚ), 100, 2]).headI ∈
      normalizeUnit ext0 7 [(5 : ℚ), 100, 2] :=
    headI_mem_of_ne_nil _ (by simp [normalizeUnit])
  exact (C3_theorem ext0 7 [(5 : ℚ), 100, 2] _ hm).1

/-- C10: a raw vector of length `L` yields exactly `⌊L/3⌋` records and the
trailing `L mod 3` values are discarded — the output coincides with that of
the truncated vector of length `3·⌊L/3⌋` (and the normalizer is total, so no
error is raised). -/
theorem C10_theorem {K : Type} [Field K] (ext : Externals K) (u : Nat)
    (fr : List K) :
    (normalizeUnit ext u fr).length = fr.length / 3 ∧
    normalizeUnit ext u fr = normalizeUnit ext u (fr.take (3 * (fr.length / 3))) := by
  have hlen : (fr.take (3 * (fr.length / 3))).length = 3 * (fr.length / 3) := by
    rw [List.length_take]
    exact Nat.min_eq_left (by omega)
  constructor
  · simp [normalizeUnit]
  · apply normalizeUnit_congr
    · rw [hlen, Nat.mul_div_cancel_left _ (by norm_num : 0 < 3)]
    · intro m hm
      rw [List.getD_eq_getElem?_getD, List.getD_eq_getElem?_getD,
        List.getElem?_take_of_lt hm]

end Gaussdec

namespace Gaussdec

theorem normalizeUnit_map_hpxindex {K : Type} [Field K] (ext : Externals K)
    (u : Nat) (fr : List K) :
    (normalizeUnit ext u fr).map (fun r => r.hpxindex) =
      List.replicate (fr.length / 3) u := by
  rw [List.eq_replicate_iff]
  constructor
  · simp [normalizeUnit]
  · intro b hb
    simp only [List.mem_map] at hb
    obtain ⟨r, hr, rfl⟩ := hb
    simp only [normalizeUnit, List.mem_map, List.mem_range] at hr
    obtain ⟨i, hi, rfl⟩ := hr
    rfl

/-- C1 counterexample: on the spec's own 3-row example table (stored `HPXINDEX`
values `[10, 20, 30]`) with the spec's stub fitter, a full-scan run (work
units `[0, 1, 2]`, as enumerated by `get_row_index`) persists records with
`hpxindex` values `[0, 2, 2]` — the row indices — not `[10, 30, 30]` as the
claim requires. -/
theorem C1_counterexample :
    get_row_index choiceModel (-1) none table3.length = .ok [0, 1, 2] ∧
    (outputRows (fit_spectra_loop ext0 table3 stubFitter [0, 1, 2]).1).map
      (fun r => r.hpxindex) = [0, 2, 2] ∧
    table3.map (fun row => row.hpxindex) = [10, 20, 30] ∧
    ([0, 2, 2] : List Nat) ≠ [10, 30, 30] :=
  ⟨rfl, by decide, by decide, by decide⟩

/-- C1 (amended): the Result Normalizer sets the persisted `hpxindex` to the
work-unit identifier (the row index) itself — `hpxindex = row_index` — and
never reads the row's stored `HPXINDEX` field: over any run, the persisted
`hpxindex` values are exactly the processed row indices, each repeated once
per fitted component. -/
theorem C1_theorem {K : Type} [Field K] (ext : Externals K)
    (table : List (SurveyRow K)) (fitter : SurveyRow K → List K)
    (order : List Nat) :
    (outputRows (fit_spectra_loop ext table fitter order).1).map
      (fun r => r.hpxindex) =
      ((processedUnits table order).map fun u =>
        List.replicate ((fitter (table.getD u default)).length / 3) u).flatten := by
  rw [outputRows_loop_eq_flatten, List.map_flatten, List.map_map]
  congr 1
  apply List.map_congr_left
  intro u hu
  exact normalizeUnit_map_hpxindex ext u (fitter (table.getD u default))

/-- C9: the records of one work unit are always appended as one contiguous
batch: the output-table contents of any run are exactly the concatenation, in
completion order, of the per-unit record batches — no record of a different
work unit is interleaved, and a reached unit contributes its whole batch
(never a partial one). -/
theorem C9_theorem {K : Type} [Field K] (ext : Externals K)
    (table : List (SurveyRow K)) (fitter : SurveyRow K → List K)
    (order : List Nat) :
    outputRows (fit_spectra_loop ext table fitter order).1 =
      ((processedUnits table order).map fun u =>
        normalizeUnit ext u (fitter (table.getD u default))).flatten :=
  outputRows_loop_eq_flatten ext table fitter order

/-- C5 counterexample: with the 3-row example table and completion order
`[0, 5, 2]`, the out-of-range identifier `5` raises `IndexError`, which
propagates through `pool.imap` and aborts the run: the valid work unit `2`
(in range, with a nonempty raw fit result) contributes no output records —
the pool does not continue with the remaining work units. -/
theorem C5_counterexample :
    (fit_spectra_loop ext0 table3 stubFitter [0, 5, 2]).2 = some PyError.indexError ∧
    (outputRows (fit_spectra_loop ext0 table3 stubFitter [0, 5, 2]).1).map
      (fun r => r.hpxindex) = [0] ∧
    2 < table3.length ∧
    stubFitter (table3.getD 2 default) ≠ [] :=
  ⟨by decide, by decide, by decide, by decide⟩

/-- C5 (amended): an out-of-range work-unit identifier makes its Fit Task fail
with an `IndexError`-class condition, and that error propagates through the
pool's result iteration and aborts the whole run: the run's outcome is the
error, and only the units before the first out-of-range identifier contribute
events/records. -/
theorem C5_theorem {K : Type} [Field K] (ext : Externals K)
    (table : List (SurveyRow K)) (fitter : SurveyRow K → List K)
    (order : List Nat) (u : Nat) (hmem : u ∈ order) (hoor : table.length ≤ u) :
    (fit_spectra_loop ext table fitter order).2 = some PyError.indexError ∧
    (fit_spectra_loop ext table fitter order).1 =
      (fit_spectra_loop ext table fitter (processedUnits table order)).1 := by
  constructor
  · rw [loop_err_eq,
      if_neg (fun hall => absurd (hall u hmem) (Nat.not_lt.mpr hoor))]
  · rw [loop_events_eq, loop_events_eq, processedUnits_idem]

/-- Witness for C5 at the concrete run `[0, 5, 2]` over the 3-row table. -/
theorem C5_witness :
    (fit_spectra_loop ext0 table3 stubFitter [0, 5, 2]).2 =
      some PyError.indexError :=
  (C5_theorem ext0 table3 stubFitter [0, 5, 2] 5 (by decide) (by decide)).1

/-- C7 counterexample: two runs that each process exactly one work unit have
different flush counts — one flush for row index `0` (divisible by 1000), none
for row index `1` — so the flush cadence is a condition on which unit
completed, not a fixed count of processed units. -/
theorem C7_counterexample :
    countFlushes (fit_spectra_loop ext0 table3 stubFitter [0]).1 = 1 ∧
    countFlushes (fit_spectra_loop ext0 table3 stubFitter [1]).1 = 0 ∧
    (processedUnits table3 [0]).length = (processedUnits table3 [1]).length :=
  ⟨by decide, by decide, by decide⟩

/-- C7 (amended): a durability flush is issued after exactly those completed
work units whose row-index identifier is divisible by 1000
(`row_index % 1000 == 0`) — a condition on the identifier's value, not a fixed
per-K-units cadence, so the unflushed tail is not bounded by a fixed number of
units in general. -/
theorem C7_theorem {K : Type} [Field K] (ext : Externals K)
    (table : List (SurveyRow K)) (fitter : SurveyRow K → List K)
    (order : List Nat) :
    countFlushes (fit_spectra_loop ext table fitter order).1 =
      ((processedUnits table order).filter fun u => u % 1000 == 0).length := by
  rw [loop_events_eq]
  induction (processedUnits table order) with
  | nil => simp [countFlushes]
  | cons u rest ih =>
    rw [List.map_cons, List.flatten_cons, countFlushes_append, ih,
      countFlushes_unitEvents, List.filter_cons]
    by_cases h : u % 1000 = 0
    · simp [h, Nat.add_comm]
    · simp [h]

end Gaussdec

namespace Gaussdec

/-- C4: when the output path exists and clobber is false, `create_tables`
fails with the FileExists-class condition (`IOError("File already exists")`)
and leaves the file system — in particular the existing output table —
untouched; when clobber is true or the path does not exist, a new empty table
is created at the path with an eagerly built `hpxindex` index
(`create_csindex`) set to be auto-maintained (`autoindex = True`), and
subsequent appends keep both index flags intact. -/
theorem C4_theorem {K : Type} (fs : FileSys K) (arguments : Arguments) :
    ((fs arguments.outname).isSome = true → arguments.clobber = false →
      create_tables fs arguments = (fs, some PyError.fileExists)) ∧
    ((fs arguments.outname).isSome = false ∨ arguments.clobber = true →
      (create_tables fs arguments).2 = none ∧
      (create_tables fs arguments).1 arguments.outname =
        some { rows := ([] : List (GaussDecRow K)),
               csindexed := true, autoindex := true }) ∧
    (∀ (t : OutTable K) (r : GaussDecRow K),
      (tableAppend t r).csindexed = t.csindexed ∧
      (tableAppend t r).autoindex = t.autoindex) := by
  refine ⟨?_, ?_, fun t r => ⟨rfl, rfl⟩⟩
  · intro h1 h2
    unfold create_tables
    rw [if_pos (by rw [h1, h2]; rfl)]
  · intro h
    have hcond : ((fs arguments.outname).isSome && !arguments.clobber) = false := by
      rcases h with h | h <;> simp [h]
    unfold create_tables
    rw [if_neg (by rw [hcond]; exact Bool.false_ne_true)]
    exact ⟨rfl, by simp⟩

/-- Witness for C4: creating the output table on an empty file system. -/
theorem C4_witness :
    (create_tables (K := ℚ) (fun _ => none) argsFull).2 = none ∧
    (create_tables (K := ℚ) (fun _ => none) argsFull).1 argsFull.outname =
      some { rows := [], csindexed := true, autoindex := true } :=
  (C4_theorem (fun _ => none) argsFull).2.1 (Or.inl rfl)

/-- C6 counterexample: with a malformed config file the run's event trace is
`[poolStarted]` followed by the config error — the worker pool is started
before the error is detected, contradicting "reported before any worker
process is started"; likewise an oversized sample count (5 > 3 rows) is only
raised after the pool has been started (though before any work unit or sample
index is produced). -/
theorem C6_counterexample :
    fit_spectra (K := ℚ) ext0 choiceModel table3 stubFitter false argsFull =
      ([RunEvent.poolStarted], some PyError.configError) ∧
    fit_spectra (K := ℚ) ext0 choiceModel table3 stubFitter true argsOversample =
      ([RunEvent.poolStarted, RunEvent.configParsed], some PyError.valueError) :=
  ⟨rfl, rfl⟩

/-- C6 (amended): a malformed config file and an oversized sample count are
fatal and are detected before any work unit is processed and before any
sample index is emitted (so no partial sample and no output record is ever
produced) — but only after the worker pool has been started: the pool is
created before the config is parsed and before the sampler runs, so the trace
always begins with `poolStarted`. -/
theorem C6_theorem {K : Type} [Field K] (ext : Externals K)
    (choice : Nat → Nat → List Nat) (table : List (SurveyRow K))
    (fitter : SurveyRow K → List K) (cfgOk : Bool) (args : Arguments) :
    (cfgOk = false →
      fit_spectra ext choice table fitter cfgOk args =
        ([RunEvent.poolStarted], some PyError.configError)) ∧
    (args.hpxindices = none → 0 ≤ args.nsamples →
      table.length < args.nsamples.toNat →
      fit_spectra ext choice table fitter true args =
        ([RunEvent.poolStarted, RunEvent.configParsed],
          some PyError.valueError)) := by
  constructor
  · intro h
    subst h
    rfl
  · intro h1 h2 h3
    simp only [fit_spectra, get_row_index, h1, if_neg (not_lt.mpr h2),
      if_pos h3, if_true]

/-- Witness for C6: the oversized-sample case at the concrete run (asking for
5 samples from the 3-row table). -/
theorem C6_witness :
    fit_spectra (K := ℚ) ext0 choiceModel table3 stubFitter true argsOversample =
      ([RunEvent.poolStarted, RunEvent.configParsed], some PyError.valueError) :=
  (C6_theorem ext0 choiceModel table3 stubFitter true argsOversample).2
    rfl (by decide) (by decide)

/-- C8 counterexample: at sample count `0` — "no positive sample count" — with
no explicit index list, `get_row_index` takes the random-sample branch and
emits an empty sample, not the full scan: for a 1-row table it emits `[]`
where a full scan emits `[0]`. -/
theorem C8_counterexample :
    enumMode 0 none = EnumMode.randomSample ∧
    EnumMode.randomSample ≠ EnumMode.fullScan ∧
    get_row_index choiceModel 0 none 1 = .ok [] ∧
    get_row_index choiceModel (-1) none 1 = .ok [0] :=
  ⟨by decide, by decide, rfl, rfl⟩

/-- C8 (amended): the Work Enumerator runs in full-scan mode — emitting every
valid row index exactly once in ascending order — if and only if no explicit
index list is given and the sample count is negative (a sample count of zero
selects an empty random sample, not a full scan); an explicit index list,
when present, takes precedence over the sample count. -/
theorem C8_theorem (choice : Nat → Nat → List Nat) (nsamples : Int)
    (hpxindices : Option (List Nat)) (nrows : Nat) :
    (enumMode nsamples hpxindices = EnumMode.fullScan ↔
      hpxindices = none ∧ nsamples < 0) ∧
    (enumMode nsamples hpxindices = EnumMode.fullScan →
      get_row_index choice nsamples hpxindices nrows = .ok (List.range nrows) ∧
      (List.range nrows).Nodup ∧ List.Pairwise (· < ·) (List.range nrows)) ∧
    (∀ l, hpxindices = some l →
      enumMode nsamples hpxindices = EnumMode.explicitList) := by
  refine ⟨?_, ?_, ?_⟩
  · cases hpxindices with
    | none =>
      by_cases h : nsamples < 0
      · simp [enumMode, h]
      · simp [enumMode, h]
    | some l => simp [enumMode]
  · intro hmode
    cases hpxindices with
    | none =>
      by_cases h : nsamples < 0
      · exact ⟨by simp [get_row_index, h], List.nodup_range nrows,
          List.pairwise_lt_range nrows⟩
      · simp [enumMode, h] at hmode
    | some l => simp [enumMode] at hmode
  · intro l hl
    subst hl
    rfl

/-- Witness for C8: a full-scan enumeration over a 2-row table. -/
theorem C8_witness :
    get_row_index choiceModel (-1) none 2 = .ok (List.range 2) :=
  ((C8_theorem choiceModel (-1) none 2).2.1 (by decide)).1

end Gaussdec
